import Mathlib

/-
Shallow embedding of the monitoring program in `src/main.go` (package main):
the poll-parse-evaluate cycle of a single-host health-check probe.

Modelling conventions:
* Go `int` is modelled as `Int`; `strconv.Atoi` keeps Go's 64-bit range
  check (`ErrRange`) explicit via `goIntMin`/`goIntMax`.
* Go integer division (`/` on int) truncates toward zero: `Int.tdiv`.
* `float64` percentages (`calculatePercentage`) are modelled exactly over
  `Rat`; every concrete value appearing in the claims is exactly
  representable in `float64`, so comparisons against the thresholds
  30/80/90 agree with the Go program on those inputs.
* `strings.Fields` splits on runs of whitespace; the ASCII whitespace set
  of `unicode.IsSpace` (space, \t, \n, \v, \f, \r) is modelled.
* The transport layer (`http.Get`, header check, body read) is external:
  a cycle's fetch outcome is either a `FetchErr` or the raw body string,
  and `getMetrics` models the body-processing part of `getMetrics` in Go.
-/

namespace GigaMon

/-- Largest value of Go's 64-bit `int`, the bound `strconv.Atoi` enforces. -/
def goIntMax : Int := 2 ^ 63 - 1

/-- Smallest value of Go's 64-bit `int`. -/
def goIntMin : Int := -(2 ^ 63)

/-- Go integer division on `int` truncates toward zero. -/
def goDiv (a b : Int) : Int := Int.tdiv a b

/-- The `Metrics` struct of `src/main.go` (seven `int` fields). -/
structure Metrics where
  loadAverage : Int
  ramTotalBytes : Int
  ramUsageBytes : Int
  diskTotalBytes : Int
  diskUsageBytes : Int
  networkBandwidthBytesPerSecond : Int
  networkLoadBytesPerSecond : Int
deriving DecidableEq

/-- The Go zero value `Metrics\x7b\x7d`: every field 0. -/
def metricsZero : Metrics := ⟨0, 0, 0, 0, 0, 0, 0⟩

/-- ASCII whitespace as recognised by `unicode.IsSpace` (used by
`strings.Fields`): space, tab, newline, vertical tab, form feed,
carriage return. -/
def goIsSpace (c : Char) : Bool :=
  c.toNat = 32 || c.toNat = 9 || c.toNat = 10 || c.toNat = 11 ||
  c.toNat = 12 || c.toNat = 13

/-- ASCII decimal digit test, as used by `strconv.Atoi` for base 10. -/
def isDigitChar (c : Char) : Bool := 48 ≤ c.toNat && c.toNat ≤ 57

/-- Accumulator core of `strings.Fields`: split on whitespace runs,
dropping empty tokens.  `acc` holds the current token reversed. -/
def fieldsAux : List Char → List Char → List (List Char)
  | [], acc => if acc = [] then [] else [acc.reverse]
  | c :: cs, acc =>
    if goIsSpace c then
      if acc = [] then fieldsAux cs []
      else acc.reverse :: fieldsAux cs []
    else fieldsAux cs (c :: acc)

/-- `strings.Fields` on a character list. -/
def fieldsL (cs : List Char) : List (List Char) := fieldsAux cs []

/-- `strings.Fields(string(body))` from `getMetrics` (src/main.go line 103). -/
def fields (s : String) : List String := (fieldsL s.data).map String.mk

/-- The two error classes of `strconv.Atoi`: invalid digits (`ErrSyntax`)
and 64-bit overflow (`ErrRange`). -/
inductive AtoiErr where
  | invalidDigits
  | valueOutOfRange
deriving DecidableEq

/-- Numeric value of a digit character. -/
def digitVal (c : Char) : Nat := c.toNat - 48

/-- Base-10 value of a digit string, most significant first. -/
def decValue (ds : List Char) : Nat :=
  ds.foldl (fun a c => a * 10 + digitVal c) 0

/-- Magnitude part of `strconv.Atoi`: digits after the optional sign.
On `ErrRange` Go returns the clamped extreme value together with the
error; on `ErrSyntax` it returns 0. -/
def atoiMag (neg : Bool) (ds : List Char) : Int × Option AtoiErr :=
  if ds = [] then (0, some .invalidDigits)
  else if ¬ ds.all isDigitChar then (0, some .invalidDigits)
  else
    let v : Int := if neg then -(decValue ds : Int) else (decValue ds : Int)
    if v < goIntMin then (goIntMin, some .valueOutOfRange)
    else if goIntMax < v then (goIntMax, some .valueOutOfRange)
    else (v, none)

/-- `strconv.Atoi` on a character list: optional leading sign, then
base-10 digits, 64-bit range check. -/
def atoiL (cs : List Char) : Int × Option AtoiErr :=
  match cs with
  | [] => (0, some .invalidDigits)
  | c :: rest =>
    if c = '-' then atoiMag true rest
    else if c = '+' then atoiMag false rest
    else atoiMag false cs

/-- `strconv.Atoi` (src/main.go, used in `parseMetrics`). -/
def atoi (s : String) : Int × Option AtoiErr := atoiL s.data

/-- A `parseMetrics` failure: the Go field name used in the wrapping
`fmt.Errorf` message, plus the wrapped `strconv.Atoi` error. -/
structure ParseErr where
  field : String
  cause : AtoiErr
deriving DecidableEq

/-- `parseMetrics` (src/main.go lines 116-140): assigns each field from
`strconv.Atoi` of the corresponding token, in order, stopping at the
first conversion error.  As in Go, the assignment to the failing field
(0 for a digit error, the clamped value for a range error) and all
earlier assignments have already happened when the error is returned. -/
def parseMetrics (values : List String) (m0 : Metrics) : Metrics × Option ParseErr :=
  let r0 := atoi (values.getD 0 "")
  let m1 := { m0 with loadAverage := r0.1 }
  match r0.2 with
  | some e => (m1, some ⟨"LoadAverage", e⟩)
  | none =>
  let r1 := atoi (values.getD 1 "")
  let m2 := { m1 with ramTotalBytes := r1.1 }
  match r1.2 with
  | some e => (m2, some ⟨"RamTotalBytes", e⟩)
  | none =>
  let r2 := atoi (values.getD 2 "")
  let m3 := { m2 with ramUsageBytes := r2.1 }
  match r2.2 with
  | some e => (m3, some ⟨"RamUsageBytes", e⟩)
  | none =>
  let r3 := atoi (values.getD 3 "")
  let m4 := { m3 with diskTotalBytes := r3.1 }
  match r3.2 with
  | some e => (m4, some ⟨"DiskTotalBytes", e⟩)
  | none =>
  let r4 := atoi (values.getD 4 "")
  let m5 := { m4 with diskUsageBytes := r4.1 }
  match r4.2 with
  | some e => (m5, some ⟨"DiskUsageBytes", e⟩)
  | none =>
  let r5 := atoi (values.getD 5 "")
  let m6 := { m5 with networkBandwidthBytesPerSecond := r5.1 }
  match r5.2 with
  | some e => (m6, some ⟨"NetworkBandwidthBytesPerSecond", e⟩)
  | none =>
  let r6 := atoi (values.getD 6 "")
  let m7 := { m6 with networkLoadBytesPerSecond := r6.1 }
  match r6.2 with
  | some e => (m7, some ⟨"NetworkLoadBytesPerSecond", e⟩)
  | none => (m7, none)

/-- Errors produced by the body-processing part of `getMetrics`. -/
inductive GetErr where
  | fieldCount (got : Nat)
  | parseFailure (e : ParseErr)
deriving DecidableEq

/-- Body-processing part of `getMetrics` (src/main.go lines 103-113):
split the body with `strings.Fields`, require exactly 7 tokens, then
`parseMetrics`.  As in Go, the (possibly partially assigned) `Metrics`
value is returned alongside the error. -/
def getMetrics (body : String) : Metrics × Option GetErr :=
  let values := fields body
  if values.length ≠ 7 then (metricsZero, some (.fieldCount values.length))
  else
    let r := parseMetrics values metricsZero
    match r.2 with
    | some e => (r.1, some (.parseFailure e))
    | none => (r.1, none)

/-- `calculatePercentage` (src/main.go lines 142-147): 0 when `total`
is 0, else `used/total*100` in `float64`, modelled exactly over `Rat`. -/
def calculatePercentage (used total : Int) : Rat :=
  if total = 0 then 0 else (used : Rat) / (total : Rat) * 100

/-- One alert line of `checkMetrics`, tagged by rule with its payload. -/
inductive Alert where
  | load (value : Int)
  | memory (pct : Rat)
  | disk (leftMB : Int)
  | network (leftMbit : Int)
deriving DecidableEq

/-- Position of each rule in the fixed emission order. -/
def alertKind : Alert → Nat
  | .load _ => 0
  | .memory _ => 1
  | .disk _ => 2
  | .network _ => 3

/-- Threshold-rule part of `checkMetrics` (src/main.go lines 61-80):
the four independent rules in program order, each contributing at most
one alert. -/
def evaluate (m : Metrics) : List Alert :=
  (if 30 < m.loadAverage then [Alert.load m.loadAverage] else []) ++
  (if 80 < calculatePercentage m.ramUsageBytes m.ramTotalBytes then
    [Alert.memory (calculatePercentage m.ramUsageBytes m.ramTotalBytes)] else []) ++
  (if 90 < calculatePercentage m.diskUsageBytes m.diskTotalBytes then
    [Alert.disk (goDiv (m.diskTotalBytes - m.diskUsageBytes) (1024 * 1024))] else []) ++
  (if 90 < calculatePercentage m.networkLoadBytesPerSecond m.networkBandwidthBytesPerSecond then
    [Alert.network (goDiv (m.networkBandwidthBytesPerSecond - m.networkLoadBytesPerSecond)
        (1024 * 1024) * 8)] else [])

/-- Failures of the transport part of `getMetrics`, which is external to
the body-processing model: `http.Get` error, Content-Type mismatch,
body read error. -/
inductive FetchErr where
  | transportFailure
  | contentTypeMismatch
  | readFailure
deriving DecidableEq

/-- `checkMetrics` (src/main.go lines 49-83) as a function of the cycle's
fetch outcome and the failure counter: returns the new counter, whether
the "Unable to fetch server statistic" diagnostic fired, and the alerts
emitted. -/
def checkMetrics (fetched : Except FetchErr String) (failuresCount : Nat) :
    Nat × Bool × List Alert :=
  match fetched with
  | .error _ => (failuresCount + 1, decide (3 ≤ failuresCount + 1), [])
  | .ok body =>
    let r := getMetrics body
    match r.2 with
    | some _ => (failuresCount + 1, decide (3 ≤ failuresCount + 1), [])
    | none => (0, false, evaluate r.1)

/-- Whether a cycle fails (fetch error, or body fails to parse). -/
def cycleFails (fetched : Except FetchErr String) : Bool :=
  match fetched with
  | .error _ => true
  | .ok body => (getMetrics body).2.isSome

/-- Counter update of one cycle: `failuresCount++` on failure, reset to
0 on success (src/main.go lines 52 and 59). -/
def cycleCounter (c : Nat) (fail : Bool) : Nat := if fail then c + 1 else 0

/-- Run a sequence of cycle outcomes (`true` = failure) through the
counter logic, recording after each cycle the counter value and whether
the "unavailable" diagnostic fired (`counter >= 3` on a failing cycle). -/
def runLoop (c : Nat) : List Bool → List (Nat × Bool)
  | [] => []
  | f :: rest =>
    let c2 := cycleCounter c f
    (c2, f && decide (3 ≤ c2)) :: runLoop c2 rest

/-- Number of consecutive failures at the end of an outcome sequence. -/
def trailingFailures (l : List Bool) : Nat :=
  (l.reverse.takeWhile (fun b => b)).length

/-- Events observed by the `select` loop in `main` (src/main.go lines
38-46): a ticker tick (carrying that cycle's fetch outcome) or the
shutdown signal. -/
inductive LoopEvent where
  | tick (fetched : Except FetchErr String)
  | quit

/-- State of the polling loop after handling one event. -/
inductive LoopState where
  | running (failuresCount : Nat)
  | terminated
deriving DecidableEq

/-- One iteration of the `for`/`select` loop in `main`: a tick runs
`checkMetrics` (its error, if any, is discarded with `_ =`) and keeps
looping; the quit signal returns from `main`. -/
def loopStep (failuresCount : Nat) (e : LoopEvent) : LoopState :=
  match e with
  | .tick f => .running (checkMetrics f failuresCount).1
  | .quit => .terminated

/-- Digit character for a value below 10. -/
def digitChar (d : Nat) : Char :=
  match d with
  | 0 => '0' | 1 => '1' | 2 => '2' | 3 => '3' | 4 => '4'
  | 5 => '5' | 6 => '6' | 7 => '7' | 8 => '8' | _ => '9'

/-- Fuelled canonical base-10 rendering of a natural number. -/
def toDecAux : Nat → Nat → List Char
  | 0, _ => []
  | fuel + 1, n =>
    if n < 10 then [digitChar n]
    else toDecAux fuel (n / 10) ++ [digitChar (n % 10)]

/-- Canonical base-10 rendering of a natural number. -/
def toDecL (n : Nat) : List Char := toDecAux (n + 1) n

/-- Join tokens with single spaces. -/
def joinSp : List (List Char) → List Char
  | [] => []
  | [t] => t
  | t :: ts => t ++ ' ' :: joinSp ts

/-- Render seven non-negative integers as a payload in field order,
joined by the field delimiter (single spaces). -/
def renderPayload (n0 n1 n2 n3 n4 n5 n6 : Nat) : String :=
  String.mk (joinSp [toDecL n0, toDecL n1, toDecL n2, toDecL n3,
    toDecL n4, toDecL n5, toDecL n6])

/-! Helper lemmas about the split, the decimal rendering, `atoi`,
`parseMetrics`, and the failure counter. -/

theorem mem_fieldsAux_ne_nil (cs : List Char) :
    ∀ (acc : List Char), ∀ u ∈ fieldsAux cs acc, u ≠ [] := by
  induction cs with
  | nil =>
    intro acc u hu
    simp only [fieldsAux] at hu
    split at hu
    · simp at hu
    · rename_i h
      simp only [List.mem_singleton] at hu
      subst hu
      simpa using h
  | cons c cs ih =>
    intro acc u hu
    simp only [fieldsAux] at hu
    split at hu
    · split at hu
      · exact ih [] u hu
      · rename_i h
        rcases List.mem_cons.mp hu with h1 | h1
        · subst h1; simpa using h
        · exact ih [] u h1
    · exact ih (c :: acc) u hu

theorem fieldsAux_token (t : List Char) :
    ∀ (rest acc : List Char), (∀ ch ∈ t, goIsSpace ch = false) →
      fieldsAux (t ++ rest) acc = fieldsAux rest (t.reverse ++ acc) := by
  induction t with
  | nil => intro rest acc _; simp
  | cons c t ih =>
    intro rest acc ht
    have hc : goIsSpace c = false := ht c (List.mem_cons_self c t)
    show fieldsAux (c :: (t ++ rest)) acc = _
    rw [show fieldsAux (c :: (t ++ rest)) acc = fieldsAux (t ++ rest) (c :: acc) by
      simp [fieldsAux, hc]]
    rw [ih rest (c :: acc) (fun ch h => ht ch (List.mem_cons_of_mem c h))]
    simp

theorem fieldsL_joinSp : ∀ (ts : List (List Char)),
    (∀ t ∈ ts, t ≠ [] ∧ ∀ ch ∈ t, goIsSpace ch = false) →
    fieldsL (joinSp ts) = ts := by
  intro ts
  induction ts with
  | nil => intro _; simp [fieldsL, joinSp, fieldsAux]
  | cons t ts ih =>
    intro h
    obtain ⟨hne, hns⟩ := h t (List.mem_cons_self t ts)
    cases ts with
    | nil =>
      show fieldsAux (joinSp [t]) [] = [t]
      have h1 := fieldsAux_token t [] [] hns
      rw [List.append_nil] at h1
      rw [show joinSp [t] = t from rfl, h1]
      simp [fieldsAux, hne]
    | cons t2 ts2 =>
      show fieldsAux (joinSp (t :: t2 :: ts2)) [] = t :: t2 :: ts2
      rw [show joinSp (t :: t2 :: ts2) = t ++ ' ' :: joinSp (t2 :: ts2) from rfl]
      rw [fieldsAux_token t (' ' :: joinSp (t2 :: ts2)) [] hns]
      rw [show fieldsAux (' ' :: joinSp (t2 :: ts2)) (t.reverse ++ [])
          = (t.reverse ++ []).reverse :: fieldsAux (joinSp (t2 :: ts2)) [] by
        simp [fieldsAux, hne, show goIsSpace ' ' = true from by decide]]
      have h2 := ih (fun u hu => h u (List.mem_cons_of_mem t hu))
      rw [show fieldsL (joinSp (t2 :: ts2)) = fieldsAux (joinSp (t2 :: ts2)) [] from rfl] at h2
      rw [h2]
      simp

theorem toDecAux_ne_nil (fuel n : Nat) (h : n < fuel) : toDecAux fuel n ≠ [] := by
  cases fuel with
  | zero => omega
  | succ f =>
    simp only [toDecAux]
    split <;> simp

theorem digitChar_toNat (d : Nat) (h : d < 10) : (digitChar d).toNat = 48 + d := by
  interval_cases d <;> decide

theorem digitChar_isDigit (d : Nat) (h : d < 10) : isDigitChar (digitChar d) = true := by
  interval_cases d <;> decide

theorem digitChar_not_space (d : Nat) (h : d < 10) : goIsSpace (digitChar d) = false := by
  interval_cases d <;> decide

theorem mem_toDecAux (fuel : Nat) : ∀ n, n < fuel →
    ∀ ch ∈ toDecAux fuel n, ∃ d, d < 10 ∧ ch = digitChar d := by
  induction fuel with
  | zero => intro n h; omega
  | succ f ih =>
    intro n h ch hch
    simp only [toDecAux] at hch
    split at hch
    · rename_i hn
      simp only [List.mem_singleton] at hch
      exact ⟨n, hn, hch⟩
    · rename_i hn
      rcases List.mem_append.mp hch with h1 | h1
      · have hdiv : n / 10 < f := by
          have := Nat.div_lt_self (show 0 < n by omega) (show (1:Nat) < 10 by norm_num)
          omega
        exact ih (n / 10) hdiv ch h1
      · simp only [List.mem_singleton] at h1
        exact ⟨n % 10, Nat.mod_lt _ (by norm_num), h1⟩

theorem decValue_aux (fuel : Nat) : ∀ n acc, n < fuel →
    List.foldl (fun a c => a * 10 + digitVal c) acc (toDecAux fuel n)
      = acc * 10 ^ (toDecAux fuel n).length + n := by
  induction fuel with
  | zero => intro n acc h; omega
  | succ f ih =>
    intro n acc h
    simp only [toDecAux]
    split
    · rename_i hn
      simp only [List.foldl_cons, List.foldl_nil, List.length_singleton, pow_one]
      have : digitVal (digitChar n) = n := by
        simp [digitVal, digitChar_toNat n hn]
      rw [this]
    · rename_i hn
      rw [List.foldl_append]
      have hdiv : n / 10 < f := by
        have := Nat.div_lt_self (show 0 < n by omega) (show (1:Nat) < 10 by norm_num)
        omega
      rw [ih (n / 10) acc hdiv]
      simp only [List.foldl_cons, List.foldl_nil, List.length_append,
        List.length_singleton]
      have hdv : digitVal (digitChar (n % 10)) = n % 10 := by
        simp [digitVal, digitChar_toNat (n % 10) (Nat.mod_lt _ (by norm_num))]
      rw [hdv]
      have h1 : n / 10 * 10 + n % 10 = n := by omega
      calc (acc * 10 ^ (toDecAux f (n / 10)).length + n / 10) * 10 + n % 10
          = acc * (10 ^ (toDecAux f (n / 10)).length * 10) + (n / 10 * 10 + n % 10) := by
            ring
        _ = acc * 10 ^ ((toDecAux f (n / 10)).length + 1) + n := by
            rw [h1, pow_succ]

theorem decValue_toDecL (n : Nat) : decValue (toDecL n) = n := by
  have h := decValue_aux (n + 1) n 0 (Nat.lt_succ_self n)
  simpa [decValue, toDecL] using h

theorem toDecL_ne_nil (n : Nat) : toDecL n ≠ [] :=
  toDecAux_ne_nil (n + 1) n (Nat.lt_succ_self n)

theorem toDecL_all_digits (n : Nat) : (toDecL n).all isDigitChar = true := by
  rw [List.all_eq_true]
  intro ch hch
  obtain ⟨d, hd, rfl⟩ := mem_toDecAux (n + 1) n (Nat.lt_succ_self n) ch hch
  exact digitChar_isDigit d hd

theorem toDecL_not_space (n : Nat) : ∀ ch ∈ toDecL n, goIsSpace ch = false := by
  intro ch hch
  obtain ⟨d, hd, rfl⟩ := mem_toDecAux (n + 1) n (Nat.lt_succ_self n) ch hch
  exact digitChar_not_space d hd

theorem atoiL_digits (cs : List Char) (hne : cs ≠ []) (hd : cs.all isDigitChar = true)
    (hle : (decValue cs : Int) ≤ goIntMax) :
    atoiL cs = ((decValue cs : Int), none) := by
  match cs, hne with
  | c :: rest, _ =>
    have hc : isDigitChar c = true := by
      rw [List.all_eq_true] at hd
      exact hd c (List.mem_cons_self c rest)
    have hcm : c ≠ '-' := by
      intro hcon; subst hcon; exact absurd hc (by decide)
    have hcp : c ≠ '+' := by
      intro hcon; subst hcon; exact absurd hc (by decide)
    simp only [atoiL, if_neg hcm, if_neg hcp]
    have hge : (0 : Int) ≤ (decValue (c :: rest) : Int) := Int.ofNat_nonneg _
    have h1 : ¬ ((decValue (c :: rest) : Int) < goIntMin) := by
      simp only [goIntMin]
      omega
    simp only [atoiMag, if_neg (show ¬ (c :: rest = []) by simp), hd, not_true,
      if_neg (show ¬ ¬ True by simp), Bool.not_eq_true]
    norm_num
    rw [if_neg h1, if_neg (not_lt.mpr hle)]

theorem atoiL_toDecL (n : Nat) (h : (n : Int) ≤ goIntMax) :
    atoiL (toDecL n) = ((n : Int), none) := by
  have h1 := atoiL_digits (toDecL n) (toDecL_ne_nil n) (toDecL_all_digits n)
    (by rw [decValue_toDecL]; exact h)
  rwa [decValue_toDecL] at h1

theorem parseMetrics_success (values : List String) (m0 : Metrics)
    (h0 : (atoi (values.getD 0 "")).2 = none)
    (h1 : (atoi (values.getD 1 "")).2 = none)
    (h2 : (atoi (values.getD 2 "")).2 = none)
    (h3 : (atoi (values.getD 3 "")).2 = none)
    (h4 : (atoi (values.getD 4 "")).2 = none)
    (h5 : (atoi (values.getD 5 "")).2 = none)
    (h6 : (atoi (values.getD 6 "")).2 = none) :
    parseMetrics values m0 =
      ({ loadAverage := (atoi (values.getD 0 "")).1,
         ramTotalBytes := (atoi (values.getD 1 "")).1,
         ramUsageBytes := (atoi (values.getD 2 "")).1,
         diskTotalBytes := (atoi (values.getD 3 "")).1,
         diskUsageBytes := (atoi (values.getD 4 "")).1,
         networkBandwidthBytesPerSecond := (atoi (values.getD 5 "")).1,
         networkLoadBytesPerSecond := (atoi (values.getD 6 "")).1 }, none) := by
  simp only [parseMetrics, h0, h1, h2, h3, h4, h5, h6]

theorem trailingFailures_concat (l : List Bool) (f : Bool) :
    trailingFailures (l ++ [f]) = if f then trailingFailures l + 1 else 0 := by
  simp only [trailingFailures, List.reverse_append, List.reverse_singleton,
    List.singleton_append]
  cases f <;> simp [List.takeWhile]

theorem foldl_cycleCounter_eq_trailing (l : List Bool) :
    l.foldl cycleCounter 0 = trailingFailures l := by
  induction l using List.reverseRecOn with
  | nil => simp [trailingFailures]
  | append_singleton l f ih =>
    rw [List.foldl_append, trailingFailures_concat]
    simp only [List.foldl_cons, List.foldl_nil, cycleCounter, ih]

theorem runLoop_getD (outs : List Bool) : ∀ (c i : Nat), i < outs.length →
    (runLoop c outs).getD i (0, false)
      = ((outs.take (i + 1)).foldl cycleCounter c,
         outs.getD i false && decide (3 ≤ (outs.take (i + 1)).foldl cycleCounter c)) := by
  induction outs with
  | nil => intro c i h; simp at h
  | cons f rest ih =>
    intro c i h
    cases i with
    | zero =>
      simp [runLoop, cycleCounter]
    | succ j =>
      have hj : j < rest.length := by simpa using h
      show (_ :: runLoop (cycleCounter c f) rest).getD (j + 1) (0, false) = _
      rw [List.getD_cons_succ]
      rw [ih (cycleCounter c f) j hj]
      simp [List.take_succ_cons]

theorem parseMetrics_atoi_none (values : List String)
    (h : (parseMetrics values metricsZero).2 = none) :
    ∀ i, i < 7 → (atoi (values.getD i "")).2 = none := by
  cases h0 : (atoi (values.getD 0 "")).2 with
  | some e => simp only [parseMetrics, h0] at h; exact Option.noConfusion h
  | none =>
  cases h1 : (atoi (values.getD 1 "")).2 with
  | some e => simp only [parseMetrics, h0, h1] at h; exact Option.noConfusion h
  | none =>
  cases h2 : (atoi (values.getD 2 "")).2 with
  | some e => simp only [parseMetrics, h0, h1, h2] at h; exact Option.noConfusion h
  | none =>
  cases h3 : (atoi (values.getD 3 "")).2 with
  | some e => simp only [parseMetrics, h0, h1, h2, h3] at h; exact Option.noConfusion h
  | none =>
  cases h4 : (atoi (values.getD 4 "")).2 with
  | some e => simp only [parseMetrics, h0, h1, h2, h3, h4] at h; exact Option.noConfusion h
  | none =>
  cases h5 : (atoi (values.getD 5 "")).2 with
  | some e =>
    simp only [parseMetrics, h0, h1, h2, h3, h4, h5] at h
    exact Option.noConfusion h
  | none =>
  cases h6 : (atoi (values.getD 6 "")).2 with
  | some e =>
    simp only [parseMetrics, h0, h1, h2, h3, h4, h5, h6] at h
    exact Option.noConfusion h
  | none =>
    intro i hi
    interval_cases i <;> assumption

/-! The claim theorems. -/

/-- C1: the Evaluator applies the four threshold rules (load > 30, RAM
percentage > 80, disk percentage > 90, network percentage > 90) and emits
the firing rules' alerts always in the order Load, Memory, Disk, Network;
for the snapshot (35, 1000, 900, 1000000, 950000, 1000000, 950000) it
emits exactly 4 alerts in that order. -/
theorem alerts_ordered_and_complete :
    (∀ m : Metrics,
      ((evaluate m).map alertKind).Pairwise (· < ·)
      ∧ ((∃ v, Alert.load v ∈ evaluate m) ↔ 30 < m.loadAverage)
      ∧ ((∃ v, Alert.memory v ∈ evaluate m)
          ↔ 80 < calculatePercentage m.ramUsageBytes m.ramTotalBytes)
      ∧ ((∃ v, Alert.disk v ∈ evaluate m)
          ↔ 90 < calculatePercentage m.diskUsageBytes m.diskTotalBytes)
      ∧ ((∃ v, Alert.network v ∈ evaluate m)
          ↔ 90 < calculatePercentage m.networkLoadBytesPerSecond
              m.networkBandwidthBytesPerSecond))
    ∧ evaluate ⟨35, 1000, 900, 1000000, 950000, 1000000, 950000⟩
        = [Alert.load 35, Alert.memory 90, Alert.disk 0, Alert.network 0] := by
  constructor
  · intro m
    by_cases hL : 30 < m.loadAverage <;>
    by_cases hM : 80 < calculatePercentage m.ramUsageBytes m.ramTotalBytes <;>
    by_cases hD : 90 < calculatePercentage m.diskUsageBytes m.diskTotalBytes <;>
    by_cases hN : 90 < calculatePercentage m.networkLoadBytesPerSecond
      m.networkBandwidthBytesPerSecond <;>
    simp +decide [evaluate, hL, hM, hD, hN, alertKind]
  · have hd : goDiv 50000 1048576 = 0 := by decide
    norm_num [evaluate, calculatePercentage, hd]

/-- C2: `calculatePercentage used total` is 0 when `total = 0` and
`used/total*100` otherwise; in particular `calculatePercentage 50 200 = 25`. -/
theorem calculatePercentage_spec :
    (∀ used total : Int,
      (total = 0 → calculatePercentage used total = 0)
      ∧ (total ≠ 0 → calculatePercentage used total = (used : Rat) / (total : Rat) * 100))
    ∧ calculatePercentage 50 200 = 25 := by
  refine ⟨fun used total => ⟨fun h => by simp [calculatePercentage, h],
    fun h => by simp [calculatePercentage, h]⟩, ?_⟩
  norm_num [calculatePercentage]

/-- Witness for C2 at `used = 7, total = 0` and `used = 50, total = 200`. -/
theorem calculatePercentage_spec_witness :
    calculatePercentage 7 0 = 0 ∧ calculatePercentage 50 200 = 25 :=
  ⟨(calculatePercentage_spec.1 7 0).1 rfl, calculatePercentage_spec.2⟩

/-- C3 counterexample: the payload of the 7 non-negative decimal integers
2^63, 0, 0, 0, 0, 0, 0 joined by the field delimiter is rejected by parse
(the first token overflows Go's 64-bit `int`, `strconv.Atoi` fails with
`ErrRange`), so parse does not succeed on every such payload. -/
theorem parse_roundtrip_cex :
    (getMetrics "9223372036854775808 0 0 0 0 0 0").2
      = some (GetErr.parseFailure ⟨"LoadAverage", AtoiErr.valueOutOfRange⟩) := by
  decide

/-- C3 (amended): for every payload of exactly 7 non-negative decimal
integers, each representable in Go's 64-bit `int`, joined by the field
delimiter, parse succeeds and the snapshot holds exactly the same seven
integers in field order (render-then-parse is the identity). -/
theorem parse_roundtrip (n0 n1 n2 n3 n4 n5 n6 : Nat)
    (h0 : (n0 : Int) ≤ goIntMax) (h1 : (n1 : Int) ≤ goIntMax)
    (h2 : (n2 : Int) ≤ goIntMax) (h3 : (n3 : Int) ≤ goIntMax)
    (h4 : (n4 : Int) ≤ goIntMax) (h5 : (n5 : Int) ≤ goIntMax)
    (h6 : (n6 : Int) ≤ goIntMax) :
    getMetrics (renderPayload n0 n1 n2 n3 n4 n5 n6)
      = ({ loadAverage := n0, ramTotalBytes := n1, ramUsageBytes := n2,
           diskTotalBytes := n3, diskUsageBytes := n4,
           networkBandwidthBytesPerSecond := n5,
           networkLoadBytesPerSecond := n6 }, none) := by
  have hts : ∀ t ∈ [toDecL n0, toDecL n1, toDecL n2, toDecL n3, toDecL n4,
      toDecL n5, toDecL n6], t ≠ [] ∧ ∀ ch ∈ t, goIsSpace ch = false := by
    intro t ht
    simp only [List.mem_cons, List.not_mem_nil, or_false] at ht
    rcases ht with rfl | rfl | rfl | rfl | rfl | rfl | rfl <;>
      exact ⟨toDecL_ne_nil _, toDecL_not_space _⟩
  have hfl := fieldsL_joinSp _ hts
  have hfields : fields (renderPayload n0 n1 n2 n3 n4 n5 n6)
      = [String.mk (toDecL n0), String.mk (toDecL n1), String.mk (toDecL n2),
         String.mk (toDecL n3), String.mk (toDecL n4), String.mk (toDecL n5),
         String.mk (toDecL n6)] := by
    show (fieldsL (joinSp [toDecL n0, toDecL n1, toDecL n2, toDecL n3, toDecL n4,
      toDecL n5, toDecL n6])).map String.mk = _
    rw [hfl]
    rfl
  have e0 : atoi ((fields (renderPayload n0 n1 n2 n3 n4 n5 n6)).getD 0 "")
      = ((n0 : Int), none) := by rw [hfields]; exact atoiL_toDecL n0 h0
  have e1 : atoi ((fields (renderPayload n0 n1 n2 n3 n4 n5 n6)).getD 1 "")
      = ((n1 : Int), none) := by rw [hfields]; exact atoiL_toDecL n1 h1
  have e2 : atoi ((fields (renderPayload n0 n1 n2 n3 n4 n5 n6)).getD 2 "")
      = ((n2 : Int), none) := by rw [hfields]; exact atoiL_toDecL n2 h2
  have e3 : atoi ((fields (renderPayload n0 n1 n2 n3 n4 n5 n6)).getD 3 "")
      = ((n3 : Int), none) := by rw [hfields]; exact atoiL_toDecL n3 h3
  have e4 : atoi ((fields (renderPayload n0 n1 n2 n3 n4 n5 n6)).getD 4 "")
      = ((n4 : Int), none) := by rw [hfields]; exact atoiL_toDecL n4 h4
  have e5 : atoi ((fields (renderPayload n0 n1 n2 n3 n4 n5 n6)).getD 5 "")
      = ((n5 : Int), none) := by rw [hfields]; exact atoiL_toDecL n5 h5
  have e6 : atoi ((fields (renderPayload n0 n1 n2 n3 n4 n5 n6)).getD 6 "")
      = ((n6 : Int), none) := by rw [hfields]; exact atoiL_toDecL n6 h6
  have hlen : (fields (renderPayload n0 n1 n2 n3 n4 n5 n6)).length = 7 := by
    rw [hfields]; rfl
  have hp := parseMetrics_success (fields (renderPayload n0 n1 n2 n3 n4 n5 n6))
    metricsZero (by rw [e0]) (by rw [e1]) (by rw [e2]) (by rw [e3]) (by rw [e4])
    (by rw [e5]) (by rw [e6])
  have hne7 : ¬ ((fields (renderPayload n0 n1 n2 n3 n4 n5 n6)).length ≠ 7) := by
    rw [hlen]; exact fun hcon => hcon rfl
  simp only [getMetrics]
  rw [if_neg hne7, hp, e0, e1, e2, e3, e4, e5, e6]

/-- Witness for C3 (amended) at the payload rendering 1..7. -/
theorem parse_roundtrip_witness :
    getMetrics (renderPayload 1 2 3 4 5 6 7)
      = ({ loadAverage := 1, ramTotalBytes := 2, ramUsageBytes := 3,
           diskTotalBytes := 4, diskUsageBytes := 5,
           networkBandwidthBytesPerSecond := 6,
           networkLoadBytesPerSecond := 7 }, none) :=
  parse_roundtrip 1 2 3 4 5 6 7 (by decide) (by decide) (by decide) (by decide)
    (by decide) (by decide) (by decide)

/-- C4: parse fails with the field-count error exactly when the
whitespace split does not yield 7 tokens; the split (`strings.Fields`)
only ever yields non-empty tokens, so this is exactly "not 7 non-empty
tokens". -/
theorem fieldCount_error_iff :
    ∀ body : String,
      ((∃ n, (getMetrics body).2 = some (GetErr.fieldCount n))
        ↔ (fields body).length ≠ 7)
      ∧ ∀ t ∈ fields body, t ≠ "" := by
  intro body
  constructor
  · by_cases h : (fields body).length = 7
    · constructor
      · rintro ⟨n, hn⟩
        cases hr : (parseMetrics (fields body) metricsZero).2 with
        | none => simp [getMetrics, h, hr] at hn
        | some e => simp [getMetrics, h, hr] at hn
      · intro hcon; exact absurd h hcon
    · exact ⟨fun _ => h, fun _ => ⟨(fields body).length, by simp [getMetrics, h]⟩⟩
  · intro t ht
    simp only [fields, List.mem_map] at ht
    obtain ⟨l, hl, rfl⟩ := ht
    have hlne : l ≠ [] := mem_fieldsAux_ne_nil body.data [] l hl
    intro hcon
    exact hlne (congrArg String.data hcon)

/-- Witness for C4 at the 3-field payload "1 2 3". -/
theorem fieldCount_error_iff_witness :
    ∃ n, (getMetrics "1 2 3").2 = some (GetErr.fieldCount n) :=
  ((fieldCount_error_iff "1 2 3").1).mpr (by decide)

/-- C5: on a 7-token payload whose k-th token is the first invalid
base-10 integer, parse fails with a conversion error naming the k-th
field (LoadAverage .. NetworkLoadBytesPerSecond) and carrying the
underlying `strconv.Atoi` error as context. -/
theorem parse_error_names_first_invalid_field :
    ∀ (values : List String), values.length = 7 →
    ∀ (k : Nat), k < 7 →
    ∀ (e : AtoiErr), (atoi (values.getD k "")).2 = some e →
    (∀ j, j < k → (atoi (values.getD j "")).2 = none) →
    (parseMetrics values metricsZero).2
        = some ⟨["LoadAverage", "RamTotalBytes", "RamUsageBytes",
            "DiskTotalBytes", "DiskUsageBytes", "NetworkBandwidthBytesPerSecond",
            "NetworkLoadBytesPerSecond"].getD k "", e⟩ := by
  intro values _ k hk e he hmin
  interval_cases k
  · simp only [parseMetrics, he]; rfl
  · have g0 := hmin 0 (by norm_num)
    simp only [parseMetrics, g0, he]; rfl
  · have g0 := hmin 0 (by norm_num); have g1 := hmin 1 (by norm_num)
    simp only [parseMetrics, g0, g1, he]; rfl
  · have g0 := hmin 0 (by norm_num); have g1 := hmin 1 (by norm_num)
    have g2 := hmin 2 (by norm_num)
    simp only [parseMetrics, g0, g1, g2, he]; rfl
  · have g0 := hmin 0 (by norm_num); have g1 := hmin 1 (by norm_num)
    have g2 := hmin 2 (by norm_num); have g3 := hmin 3 (by norm_num)
    simp only [parseMetrics, g0, g1, g2, g3, he]; rfl
  · have g0 := hmin 0 (by norm_num); have g1 := hmin 1 (by norm_num)
    have g2 := hmin 2 (by norm_num); have g3 := hmin 3 (by norm_num)
    have g4 := hmin 4 (by norm_num)
    simp only [parseMetrics, g0, g1, g2, g3, g4, he]; rfl
  · have g0 := hmin 0 (by norm_num); have g1 := hmin 1 (by norm_num)
    have g2 := hmin 2 (by norm_num); have g3 := hmin 3 (by norm_num)
    have g4 := hmin 4 (by norm_num); have g5 := hmin 5 (by norm_num)
    simp only [parseMetrics, g0, g1, g2, g3, g4, g5, he]; rfl

/-- Witness for C5: token 2 ("x") is the first invalid one, and the
error names RamUsageBytes. -/
theorem parse_error_names_first_invalid_field_witness :
    (parseMetrics ["1", "2", "x", "4", "5", "6", "7"] metricsZero).2
      = some ⟨"RamUsageBytes", AtoiErr.invalidDigits⟩ :=
  parse_error_names_first_invalid_field ["1", "2", "x", "4", "5", "6", "7"] rfl
    2 (by norm_num) AtoiErr.invalidDigits (by decide) (by decide)

/-- C6 counterexample: on the payload "35 100 90 x 5 6 7" parse fails,
yet the metrics value returned alongside the error carries the already
parsed fields 35, 100, 90 from the failing payload, so a partially
populated snapshot is produced (the claim says none ever is). -/
theorem parse_failure_partial_metrics_cex :
    getMetrics "35 100 90 x 5 6 7"
      = ({ loadAverage := 35, ramTotalBytes := 100, ramUsageBytes := 90,
           diskTotalBytes := 0, diskUsageBytes := 0,
           networkBandwidthBytesPerSecond := 0, networkLoadBytesPerSecond := 0 },
         some (GetErr.parseFailure ⟨"DiskTotalBytes", AtoiErr.invalidDigits⟩)) := by
  decide

/-- C6 (amended): on parse failure `getMetrics` returns an error and the
caller discards the accompanying metrics value, so no alerts are
evaluated from it (though that value may carry an already-parsed prefix
of the payload); on success the snapshot is fully populated: every field
equals the parse of its token. -/
theorem parse_failure_no_snapshot_evaluated :
    (∀ (body : String) (c : Nat), (getMetrics body).2.isSome = true →
      (checkMetrics (Except.ok body) c).2.2 = [])
    ∧ (∀ body : String, (getMetrics body).2 = none →
        (getMetrics body).1
          = { loadAverage := (atoi ((fields body).getD 0 "")).1,
              ramTotalBytes := (atoi ((fields body).getD 1 "")).1,
              ramUsageBytes := (atoi ((fields body).getD 2 "")).1,
              diskTotalBytes := (atoi ((fields body).getD 3 "")).1,
              diskUsageBytes := (atoi ((fields body).getD 4 "")).1,
              networkBandwidthBytesPerSecond := (atoi ((fields body).getD 5 "")).1,
              networkLoadBytesPerSecond := (atoi ((fields body).getD 6 "")).1 }) := by
  constructor
  · intro body c h
    simp only [checkMetrics]
    cases hr : (getMetrics body).2 with
    | some e => simp [hr]
    | none => rw [hr] at h; simp at h
  · intro body h
    by_cases hl : (fields body).length = 7
    · cases hp : (parseMetrics (fields body) metricsZero).2 with
      | some e => simp [getMetrics, hl, hp] at h
      | none =>
        have hc := parseMetrics_atoi_none (fields body) hp
        have hs := parseMetrics_success (fields body) metricsZero
          (hc 0 (by norm_num)) (hc 1 (by norm_num)) (hc 2 (by norm_num))
          (hc 3 (by norm_num)) (hc 4 (by norm_num)) (hc 5 (by norm_num))
          (hc 6 (by norm_num))
        simp [getMetrics, hl, hp, hs]
    · simp [getMetrics, hl] at h

/-- Witness for C6 (amended): a failing body evaluates no alerts; a
successful one yields the fully populated snapshot. -/
theorem parse_failure_no_snapshot_evaluated_witness :
    (checkMetrics (Except.ok "oops") 0).2.2 = []
    ∧ (getMetrics "1 2 3 4 5 6 7").1
        = { loadAverage := 1, ramTotalBytes := 2, ramUsageBytes := 3,
            diskTotalBytes := 4, diskUsageBytes := 5,
            networkBandwidthBytesPerSecond := 6, networkLoadBytesPerSecond := 7 } := by
  constructor
  · exact parse_failure_no_snapshot_evaluated.1 "oops" 0 (by decide)
  · have h := parse_failure_no_snapshot_evaluated.2 "1 2 3 4 5 6 7" (by decide)
    rw [h]; decide

/-- C7: across every cycle sequence starting at counter 0, the counter
equals the number of consecutive failures since the last success, the
"statistics unavailable" diagnostic fires exactly on failing cycles
where the incremented counter is at least 3, and three failures followed
by a success reset the counter so the diagnostic stays suppressed until
3 consecutive failures accumulate again. -/
theorem failure_counter_invariant :
    (∀ (fetched : Except FetchErr String) (c : Nat),
      (checkMetrics fetched c).1 = cycleCounter c (cycleFails fetched)
      ∧ (checkMetrics fetched c).2.1
          = (cycleFails fetched && decide (3 ≤ cycleCounter c (cycleFails fetched))))
    ∧ (∀ (outs : List Bool) (i : Nat), i < outs.length →
        (runLoop 0 outs).getD i (0, false)
          = (trailingFailures (outs.take (i + 1)),
             outs.getD i false && decide (3 ≤ trailingFailures (outs.take (i + 1)))))
    ∧ runLoop 0 [true, true, true, false, true, true, true]
        = [(1, false), (2, false), (3, true), (0, false), (1, false), (2, false),
           (3, true)] := by
  refine ⟨?_, ?_, by decide⟩
  · intro fetched c
    cases fetched with
    | error e => simp [checkMetrics, cycleFails, cycleCounter]
    | ok body =>
      cases hr : (getMetrics body).2 with
      | some e => simp [checkMetrics, cycleFails, cycleCounter, hr]
      | none => simp [checkMetrics, cycleFails, cycleCounter, hr]
  · intro outs i h
    rw [runLoop_getD outs 0 i h, foldl_cycleCounter_eq_trailing]

/-- Witness for C7: after failures-failures-failures-success the counter
is back to 0 and the diagnostic is suppressed. -/
theorem failure_counter_invariant_witness :
    (runLoop 0 [true, true, true, false, true]).getD 3 (0, false) = (0, false) := by
  have h := failure_counter_invariant.2.1 [true, true, true, false, true] 3 (by decide)
  rw [h]; decide

/-- C8: whenever the disk rule fires the alert payload is
`(diskTotal - diskUsage) / (1024*1024)` MB, and whenever the network
rule fires it is `(networkBandwidth - networkLoad) / (1024*1024) * 8`
Mbit/s; those are the only payloads a disk or network alert ever
carries. -/
theorem disk_network_alert_payloads :
    ∀ m : Metrics,
      (90 < calculatePercentage m.diskUsageBytes m.diskTotalBytes →
        Alert.disk (goDiv (m.diskTotalBytes - m.diskUsageBytes) (1024 * 1024))
          ∈ evaluate m)
      ∧ (90 < calculatePercentage m.networkLoadBytesPerSecond
            m.networkBandwidthBytesPerSecond →
          Alert.network (goDiv (m.networkBandwidthBytesPerSecond
              - m.networkLoadBytesPerSecond) (1024 * 1024) * 8) ∈ evaluate m)
      ∧ (∀ x, Alert.disk x ∈ evaluate m →
          x = goDiv (m.diskTotalBytes - m.diskUsageBytes) (1024 * 1024))
      ∧ (∀ x, Alert.network x ∈ evaluate m →
          x = goDiv (m.networkBandwidthBytesPerSecond - m.networkLoadBytesPerSecond)
            (1024 * 1024) * 8) := by
  intro m
  refine ⟨fun h => by simp [evaluate, h], fun h => by simp [evaluate, h],
    fun x hx => ?_, fun x hx => ?_⟩
  · by_cases hL : 30 < m.loadAverage <;>
    by_cases hM : 80 < calculatePercentage m.ramUsageBytes m.ramTotalBytes <;>
    by_cases hD : 90 < calculatePercentage m.diskUsageBytes m.diskTotalBytes <;>
    by_cases hN : 90 < calculatePercentage m.networkLoadBytesPerSecond
      m.networkBandwidthBytesPerSecond <;>
    simp [evaluate, hL, hM, hD, hN] at hx <;> exact hx
  · by_cases hL : 30 < m.loadAverage <;>
    by_cases hM : 80 < calculatePercentage m.ramUsageBytes m.ramTotalBytes <;>
    by_cases hD : 90 < calculatePercentage m.diskUsageBytes m.diskTotalBytes <;>
    by_cases hN : 90 < calculatePercentage m.networkLoadBytesPerSecond
      m.networkBandwidthBytesPerSecond <;>
    simp [evaluate, hL, hM, hD, hN] at hx <;> exact hx

/-- Witness for C8 at the all-firing snapshot of the spec's scenario. -/
theorem disk_network_alert_payloads_witness :
    Alert.disk (goDiv (1000000 - 950000) (1024 * 1024))
        ∈ evaluate ⟨35, 1000, 900, 1000000, 950000, 1000000, 950000⟩
    ∧ Alert.network (goDiv (1000000 - 950000) (1024 * 1024) * 8)
        ∈ evaluate ⟨35, 1000, 900, 1000000, 950000, 1000000, 950000⟩ := by
  constructor
  · exact (disk_network_alert_payloads
      ⟨35, 1000, 900, 1000000, 950000, 1000000, 950000⟩).1
      (by norm_num [calculatePercentage])
  · exact (disk_network_alert_payloads
      ⟨35, 1000, 900, 1000000, 950000, 1000000, 950000⟩).2.1
      (by norm_num [calculatePercentage])

/-- C9: no cycle error terminates the polling loop: every tick (even a
failing one) transitions back to a running state, and the loop
terminates exactly on the quit signal. -/
theorem loop_terminates_only_on_quit :
    (∀ (c : Nat) (e : LoopEvent), loopStep c e = LoopState.terminated ↔ e = LoopEvent.quit)
    ∧ (∀ (c : Nat) (fe : FetchErr),
        loopStep c (LoopEvent.tick (Except.error fe)) = LoopState.running (c + 1))
    ∧ (∀ (c : Nat) (body : String), (getMetrics body).2.isSome = true →
        loopStep c (LoopEvent.tick (Except.ok body)) = LoopState.running (c + 1)) := by
  refine ⟨?_, ?_, ?_⟩
  · intro c e
    cases e with
    | tick f => simp [loopStep]
    | quit => simp [loopStep]
  · intro c fe
    simp [loopStep, checkMetrics]
  · intro c body h
    cases hr : (getMetrics body).2 with
    | some e => simp [loopStep, checkMetrics, hr]
    | none => rw [hr] at h; simp at h

/-- Witness for C9: a tick with an unparseable body keeps the loop
running. -/
theorem loop_terminates_only_on_quit_witness :
    loopStep 0 (LoopEvent.tick (Except.ok "bad")) = LoopState.running 1 :=
  loop_terminates_only_on_quit.2.2 0 "bad" (by decide)

/-- C10: a 7-token payload containing "-5" parses successfully into a
snapshot with a negative field, and the Evaluator processes that
snapshot without rejecting or clamping the negative value. -/
theorem parse_accepts_negative :
    getMetrics "-5 1000 900 1000000 950000 1000000 950000"
      = ({ loadAverage := -5, ramTotalBytes := 1000, ramUsageBytes := 900,
           diskTotalBytes := 1000000, diskUsageBytes := 950000,
           networkBandwidthBytesPerSecond := 1000000,
           networkLoadBytesPerSecond := 950000 }, none)
    ∧ (getMetrics "-5 1000 900 1000000 950000 1000000 950000").1.loadAverage < 0
    ∧ evaluate (getMetrics "-5 1000 900 1000000 950000 1000000 950000").1
        = [Alert.memory 90, Alert.disk 0, Alert.network 0] := by
  have hm : (getMetrics "-5 1000 900 1000000 950000 1000000 950000").1
      = (⟨-5, 1000, 900, 1000000, 950000, 1000000, 950000⟩ : Metrics) := by decide
  refine ⟨by decide, by decide, ?_⟩
  rw [hm]
  have hd : goDiv 50000 1048576 = 0 := by decide
  norm_num [evaluate, calculatePercentage, hd]

end GigaMon
